import Mathlib

/-
Verification of the live entity-watch subsystem of the ArmoniK CLI.

The definitions below are a shallow embedding of the Python sources:
  * `src/armonik_cli/commands/watch.py`   (Watch, WatchGroup, WatchGroupDisplay)
  * `src/armonik_cli/commands/tasks.py`   (TaskWatch, TasksWatchGroup, TaskWatchDisplay)
  * `src/armonik_cli/commands/results.py` (ResultWatch, ResultsWatchGroup)
  * `src/armonik_cli/core/common.py`      (format_timestamp, calculate_duration)

Timestamps (Python `time.time()` readings) are modelled as natural numbers
passed explicitly to each operation; the status enumeration of an entity kind
(`status_cls`, an external `IntEnum`) is modelled by the list of its member
names, and an entity's status field is modelled by the member name it maps to.
-/

namespace ArmoniKCLI

/-- One entry of `Watch.status_tracker`: the dict `{"start": float, "end": Optional[float]}`
appended by `Watch.current_status`'s setter.  `start` is always a clock reading
(never `None` in any code path), so it is a plain `Nat` here. -/
structure StatusInterval where
  start : Nat
  «end» : Option Nat
deriving Repr, DecidableEq

/-- The part of an entity record (a Task or a Result) the watch subsystem reads:
its status (as the name of the status-enum member, i.e. `status_cls(x.status).name`)
and its `session_id`. -/
structure EntityRec where
  status : String
  session_id : String
deriving Repr, DecidableEq

/-- `Watch` from `watch.py`: id, cached entity data, the status tracker
(a dict from each status label of `status_cls` to its interval list, modelled
as an association list in dict insertion order), and the current status
(`None` before any status is observed). -/
structure Watch where
  id : String
  data : Option EntityRec
  status_tracker : List (String × List StatusInterval)
  current_status : Option String
deriving Repr, DecidableEq

/-- Python truthiness of an `Optional[str]`: `None` and `""` are falsy. -/
def strTruthy : Option String → Bool
  | some s => s ≠ ""
  | none => false

/-- Dict read `tracker[k]` (with the `[]` default standing for the entries of a
key that was never initialised; the setter is only invoked with labels of
`status_cls`, which are all keys of the dict). -/
def trackerGet (tr : List (String × List StatusInterval)) (k : String) : List StatusInterval :=
  ((tr.find? (fun p => p.1 == k)).map Prod.snd).getD []

/-- Dict write `tracker[k] = v` on a key present since construction
(`__init__` creates one key per status label; keys are never added later). -/
def trackerSet (tr : List (String × List StatusInterval)) (k : String)
    (v : List StatusInterval) : List (String × List StatusInterval) :=
  tr.map (fun p => if p.1 = k then (p.1, v) else p)

/-- `{field.name: [] for field in self.status_cls}`: the fresh tracker with one
empty interval list per status label. -/
def initTracker (labels : List String) : List (String × List StatusInterval) :=
  labels.map (fun s => (s, []))

/-- The condition `entries and entries[-1]["start"] is not None and entries[-1]["end"] is None`
of the closing loop in `Watch.current_status`'s setter: the list is non-empty
and its last interval is still open.  (`start` is never `None`, see `StatusInterval`.) -/
def lastOpen (es : List StatusInterval) : Bool :=
  match es.getLast? with
  | some i => i.«end».isNone
  | none => false

/-- `entries[-1]["end"] = curr_time`: close the last interval of the list. -/
def closeLast (t : Nat) : List StatusInterval → List StatusInterval
  | [] => []
  | [i] => [{ i with «end» := some t }]
  | i :: j :: is => i :: closeLast t (j :: is)

/-- One step of the loop `for status, entries in self.status_tracker.items()`:
any status other than the new one whose last interval is open gets that
interval's `end` set to `curr_time`. -/
def closeOthers (value : String) (t : Nat) (p : String × List StatusInterval) :
    String × List StatusInterval :=
  if p.1 ≠ value ∧ lastOpen p.2 then (p.1, closeLast t p.2) else p

/-- The mutating part of `Watch.current_status`'s setter (everything after the
early return): record the new status event, then close open intervals of the
other statuses, and set `_current_status`. -/
def Watch.set_status_update (w : Watch) (value : String) (t : Nat) : Watch :=
  { w with
    current_status := some value
    status_tracker :=
      (trackerSet w.status_tracker value
        (if trackerGet w.status_tracker value = [] then [⟨t, none⟩]
         else trackerGet w.status_tracker value ++ [⟨t, none⟩])).map (closeOthers value t) }

/-- `Watch.current_status`'s setter, `watch.py` lines 73-99.  `t` is the
`time.time()` reading `curr_time` taken by the call. -/
def Watch.set_current_status (w : Watch) (value : String) (t : Nat) : Watch :=
  if w.current_status = some value ∧ trackerGet w.status_tracker value ≠ [] then w
  else w.set_status_update value t

/-- `Watch.data`'s setter: store the new record, then route its status through
the `current_status` setter. -/
def Watch.set_data (w : Watch) (e : EntityRec) (t : Nat) : Watch :=
  { w with data := some e }.set_current_status e.status t

/-- The tracker built by `Watch.__init__`: one empty list per label, then — if
the initial current status is truthy — `self.status_tracker[self._current_status].append({"start": t, "end": None})`. -/
def initWithStatus (labels : List String) (current : Option String) (t : Nat) :
    List (String × List StatusInterval) :=
  if strTruthy current then
    trackerSet (initTracker labels) (current.getD "")
      (trackerGet (initTracker labels) (current.getD "") ++ [⟨t, none⟩])
  else initTracker labels

/-- `Watch.__init__`: fresh tracker, current status drawn from `data` when
present (Python truthiness: a `""` label would also be skipped), and in that
case one open interval appended at construction time `t`. -/
def Watch.init (labels : List String) (identifier : String) (data : Option EntityRec)
    (t : Nat) : Watch :=
  { id := identifier
    data := data
    status_tracker := initWithStatus labels (data.map (fun e => e.status)) t
    current_status := data.map (fun e => e.status) }

/-- The operations that mutate a `Watch` after construction: an assignment to
the `current_status` setter, or an assignment to the `data` setter. -/
inductive WOp where
  | set_status (value : String) (t : Nat)
  | set_data (e : EntityRec) (t : Nat)
deriving Repr, DecidableEq

def Watch.applyOp (w : Watch) : WOp → Watch
  | .set_status v t => w.set_current_status v t
  | .set_data e t => w.set_data e t

def Watch.applyOps (w : Watch) (ops : List WOp) : Watch :=
  ops.foldl Watch.applyOp w

/-- The status labels of the tracker, in dict order. -/
def trackerKeys (w : Watch) : List String :=
  w.status_tracker.map Prod.fst

/-- How many status labels currently have an open last interval. -/
def openCount (w : Watch) : Nat :=
  w.status_tracker.countP (fun p => lastOpen p.2)

/-- Every `start` timestamp recorded in the tracker is at most `T`: the state
of a watch whose operations so far used clock readings bounded by `T`. -/
def startsBoundedBy (w : Watch) (T : Nat) : Prop :=
  ∀ p ∈ w.status_tracker, ∀ i ∈ p.2, i.start ≤ T

instance (w : Watch) (T : Nat) : Decidable (startsBoundedBy w T) :=
  inferInstanceAs (Decidable (∀ p ∈ w.status_tracker, ∀ i ∈ p.2, i.start ≤ T))

/-- `WatchGroupDisplay` (`watch.py` lines 196-212): the tab index (a Python
`int`, so `Int` here) and the watch list shown in the tab strip. -/
structure WatchGroupDisplay where
  current_tab : Int
  watches : List Watch
deriving Repr, DecidableEq

/-- The result of one `WatchGroupDisplay.update()` call: the new display state,
the `click.exceptions.Exit(0)` raised on ESCAPE, or the `ZeroDivisionError`
raised by `%` when `len(self.watches)` is `0`. -/
inductive UpdateOutcome where
  | ok (d : WatchGroupDisplay)
  | exited (code : Nat)
  | zeroDivisionError
deriving Repr, DecidableEq

/-- `WatchGroupDisplay.update()` (`watch.py` lines 204-212) with the key
returned by `get_key(blocking=False)` as input (`""` when no key was pressed).
Python `%` on a positive modulus agrees with `Int.emod`; `x % 0` raises
`ZeroDivisionError`. -/
def WatchGroupDisplay.update (d : WatchGroupDisplay) (key : String) : UpdateOutcome :=
  if key = "j" ∨ key = "LEFT" then
    if d.watches.length = 0 then .zeroDivisionError
    else .ok { d with current_tab := (d.current_tab - 1) % (d.watches.length : Int) }
  else if key = "l" ∨ key = "RIGHT" then
    if d.watches.length = 0 then .zeroDivisionError
    else .ok { d with current_tab := (d.current_tab + 1) % (d.watches.length : Int) }
  else if key = "ESCAPE" then .exited 0
  else .ok d

/-- Feed one more key to the outcome of earlier `update()` calls (an exception
ends the render loop, so later keys are not processed). -/
def stepKey (o : UpdateOutcome) (key : String) : UpdateOutcome :=
  match o with
  | .ok d => d.update key
  | e => e

/-- A sequence of `update()` calls on a display, one per key. -/
def runKeys (d : WatchGroupDisplay) (keys : List String) : UpdateOutcome :=
  keys.foldl stepKey (.ok d)

/-- Outcome of the session-resolution step of `WatchGroup.__init__`
(`watch.py` lines 150-166) together with what follows it.  `listening` means
`_register_event_handlers()` was reached with the given resolved session id;
`promptForSession` is the interactive `click.prompt` path (registration
happens after the user answers); `valueErrorMultipleSessions` is the
`ValueError` raised for ambiguous session ids; `attributeErrorMissingData`
is the `AttributeError` of reading `watch.data.session_id` when a populated
watch has no data. -/
inductive SessionResolution where
  | valueErrorMultipleSessions
  | attributeErrorMissingData
  | promptForSession
  | listening (session_id : String)
deriving Repr, DecidableEq

/-- `{watch.data.session_id for watch in self.watches.values()}`: `none` when
some watch's `data` is `None` (Python would raise `AttributeError`), otherwise
the distinct session ids (a Python `set`, modelled as a deduplicated list). -/
def watchSessionIds (watches : List Watch) : Option (List String) :=
  (watches.mapM (fun (w : Watch) => w.data.map (fun e => e.session_id))).map List.dedup

/-- The tail of `WatchGroup.__init__` after `_init_populate_watches()`:
when no (truthy) session id was supplied, collect the watches' session ids,
raise `ValueError` if more than one, prompt if none; then (on the non-raising
paths) event handlers are registered. -/
def resolveSession (session_id : Option String) (watches : List Watch) : SessionResolution :=
  if strTruthy session_id then .listening (session_id.getD "")
  else
    match watchSessionIds watches with
    | none => .attributeErrorMissingData
    | some ids =>
      if 1 < ids.length then .valueErrorMultipleSessions
      else
        match ids with
        | [] => .promptForSession
        | s :: _ => .listening s

/-- Whether `_register_event_handlers()` is reached on this path. -/
def listenersRegistered : SessionResolution → Bool
  | .listening _ => true
  | .promptForSession => true
  | .valueErrorMultipleSessions => false
  | .attributeErrorMissingData => false

/-- `armonik.client.events.EventTypes` members used by the watch groups. -/
inductive EventTypes where
  | NEW_TASK
  | TASK_STATUS_UPDATE
  | NEW_RESULT
  | RESULT_STATUS_UPDATE
deriving Repr, DecidableEq

/-- The group state the autofill callbacks touch: the keys of `self.watches`
(a dict: inserting an existing key overwrites in place) and `self.limit`. -/
structure GroupWatchState where
  watch_ids : List String
  limit : Nat
deriving Repr, DecidableEq

/-- `self.watches[k] = ...` as it affects the key set of the dict. -/
def dictInsert (ks : List String) (k : String) : List String :=
  if k ∈ ks then ks else ks ++ [k]

/-- Python exceptions surfaced by the modelled code paths. -/
inductive PyErr where
  | attributeError
deriving Repr, DecidableEq

/-- `TasksWatchGroup.autofill` (`tasks.py` lines 398-412): under the limit and
on a `NEW_TASK` event, a fresh `TaskWatch` is stored under `event.task_id` and
then refreshed.  The fresh watch has `data = None`, so `TaskWatch.refresh`
dereferences `None` and the call raises `AttributeError` (second component
`true`) after the key was inserted. -/
def TasksWatchGroup.autofill (st : GroupWatchState) (event_type : EventTypes)
    (ev_task_id : String) : GroupWatchState × Bool :=
  if st.watch_ids.length < st.limit ∧ event_type = .NEW_TASK then
    ({ st with watch_ids := dictInsert st.watch_ids ev_task_id }, true)
  else (st, false)

/-- `ResultsWatchGroup.autofill` (`results.py` lines 373-387): same guard;
`ResultWatch.refresh` fetches by id (`client.get_result(self.id)`), so no
exception is raised. -/
def ResultsWatchGroup.autofill (st : GroupWatchState) (event_type : EventTypes)
    (ev_result_id : String) : GroupWatchState :=
  if st.watch_ids.length < st.limit ∧ event_type = .NEW_RESULT then
    { st with watch_ids := dictInsert st.watch_ids ev_result_id }
  else st

/-- Deliver a stream of `(event_type, task_id)` events to the tasks autofill
callback; an exception raised inside the callback ends the listener thread,
so delivery stops there. -/
def runTasksAutofill (st : GroupWatchState) : List (EventTypes × String) → GroupWatchState
  | [] => st
  | (et, tid) :: evs =>
    match TasksWatchGroup.autofill st et tid with
    | (st', true) => st'
    | (st', false) => runTasksAutofill st' evs

/-- Deliver a stream of `(event_type, result_id)` events to the results
autofill callback. -/
def runResultsAutofill (st : GroupWatchState) : List (EventTypes × String) → GroupWatchState
  | [] => st
  | (et, rid) :: evs => runResultsAutofill (ResultsWatchGroup.autofill st et rid) evs

/-- `TaskWatch.refresh` (`tasks.py` lines 278-283): `self.data.refresh(client)`
refetches the task in place (the client capability, modelled as a map from the
task id to the fetched record), then the observed status goes through the
`current_status` setter.  When `data` is `None` — as for every watch created by
the explicit-ids population path — the attribute access raises
`AttributeError`. -/
def TaskWatch.refresh (w : Watch) (client : String → EntityRec) (t : Nat) :
    Except PyErr Watch :=
  match w.data with
  | none => .error .attributeError
  | some _ =>
    let fetched := client w.id
    .ok (({ w with data := some fetched }).set_current_status fetched.status t)

/-- The explicit-ids branch of `TasksWatchGroup._init_populate_watches`
(`tasks.py` lines 301-305): for each id, construct `TaskWatch(task_id)` (no
data) and immediately refresh it. -/
def tasksPopulateExplicit (labels : List String) (client : String → EntityRec) (t : Nat) :
    List String → Except PyErr (List (String × Watch))
  | [] => .ok []
  | task_id :: rest =>
    match TaskWatch.refresh (Watch.init labels task_id none t) client t with
    | .error e => .error e
    | .ok w =>
      match tasksPopulateExplicit labels client t rest with
      | .error e => .error e
      | .ok ws => .ok ((task_id, w) :: ws)

/-- Two-digit zero-padded decimal field of `strftime`. -/
def pad2 (n : Nat) : String :=
  if n < 10 then "0" ++ toString n else toString n

/-- `datetime.fromtimestamp(ts).strftime("%H:%M:%S")`.  `fromtimestamp` uses
the local timezone; `off` is the UTC offset of that timezone in seconds. -/
def strfHMS (off ts : Nat) : String :=
  pad2 (((ts + off) / 3600) % 24) ++ ":" ++ pad2 (((ts + off) / 60) % 60) ++ ":"
    ++ pad2 ((ts + off) % 60)

/-- `format_timestamp` (`common.py` lines 90-101): `"ongoing"` for a `None`
timestamp, otherwise the local clock time `HH:MM:SS`. -/
def format_timestamp (off : Nat) : Option Nat → String
  | none => "ongoing"
  | some ts => strfHMS off ts

/-- `calculate_duration` (`common.py` lines 104-116): end minus start, with the
current time `now` substituted for a `None` end.  The code rounds a float to
two decimals; this model uses whole seconds. -/
def calculate_duration (now start : Nat) : Option Nat → Int
  | none => (now : Int) - (start : Int)
  | some e => (e : Int) - (start : Int)

/-- The rows collected by `TaskWatchDisplay._create_status_display`
(`tasks.py` lines 469-479; `ResultWatchDisplay` is identical): one
`(status, formatted start, duration)` triple per recorded interval, in tracker
order.  (The `if entries` guard only skips empty lists, which contribute no
rows anyway.) -/
def statusTableRows (off now : Nat) (tracker : List (String × List StatusInterval)) :
    List (String × String × String) :=
  (tracker.map (fun p => p.2.map (fun entry =>
    (p.1, format_timestamp off (some entry.start),
      toString (calculate_duration now entry.start entry.«end»))))).flatten

/-- Python `<` on strings: lexicographic comparison of the code-point
sequences. -/
def charListLt : List Char → List Char → Bool
  | [], [] => false
  | [], _ :: _ => true
  | _ :: _, [] => false
  | a :: as, b :: bs => if a < b then true else if b < a then false else charListLt as bs

/-- The reflexive closure of Python string `<`. -/
def pyStrLE (s₁ s₂ : String) : Bool :=
  s₁ == s₂ || charListLt s₁.data s₂.data

/-- Row ordering used by `sorted(table_rows, key=lambda v: v[1])`: compare the
formatted start-time strings. -/
def rowKeyLE (a b : String × String × String) : Prop :=
  pyStrLE a.2.1 b.2.1 = true

instance : DecidableRel rowKeyLE :=
  fun a b => inferInstanceAs (Decidable (pyStrLE a.2.1 b.2.1 = true))

/-- `for status, start, dur in sorted(table_rows, key=lambda v: v[1])`: the
displayed timeline rows.  Python's `sorted` is a stable ascending sort, which
`List.insertionSort` with the non-strict key order reproduces. -/
def sortedStatusRows (off now : Nat) (tracker : List (String × List StatusInterval)) :
    List (String × String × String) :=
  (statusTableRows off now tracker).insertionSort rowKeyLE

/-- A concrete three-watch display (tab index 1) used to instantiate the
navigation properties. -/
def sampleDisplay : WatchGroupDisplay :=
  ⟨1, [Watch.init ["PENDING"] "a" none 0, Watch.init ["PENDING"] "b" none 0,
    Watch.init ["PENDING"] "c" none 0]⟩

/-- A tracker whose two recorded intervals straddle a local midnight (UTC,
`off = 0`): status `"A"` held from 86399 (= 23:59:59) until 86401, status
`"B"` open since 86401 (= 00:00:01 of the next day). -/
def cxTracker : List (String × List StatusInterval) :=
  [("A", [⟨86399, some 86401⟩]), ("B", [⟨86401, none⟩])]

/-! Lemmas about the tracker and the `current_status` setter. -/

theorem lastOpen_nil : lastOpen [] = false := rfl

theorem lastOpen_concat (es : List StatusInterval) (t : Nat) :
    lastOpen (es ++ [⟨t, none⟩]) = true := by
  unfold lastOpen
  rw [List.getLast?_concat]
  rfl

theorem closeLast_length (t : Nat) : ∀ es : List StatusInterval,
    (closeLast t es).length = es.length
  | [] => rfl
  | [_] => rfl
  | i :: j :: is => by
    show (i :: closeLast t (j :: is)).length = _
    simp [closeLast_length t (j :: is)]

theorem getLast?_closeLast (t : Nat) : ∀ es : List StatusInterval,
    (closeLast t es).getLast? = es.getLast?.map (fun i => { i with «end» := some t })
  | [] => rfl
  | [_] => rfl
  | i :: j :: is => by
    have ih := getLast?_closeLast t (j :: is)
    show (i :: closeLast t (j :: is)).getLast? = _
    cases hc : closeLast t (j :: is) with
    | nil =>
      have hl := closeLast_length t (j :: is)
      rw [hc] at hl
      simp at hl
    | cons x xs =>
      calc (i :: x :: xs).getLast?
          = (x :: xs).getLast? := List.getLast?_cons_cons
        _ = (j :: is).getLast?.map (fun i => { i with «end» := some t }) := by
            rw [← hc, ih]
        _ = (i :: j :: is).getLast?.map (fun i => { i with «end» := some t }) := by
            rw [List.getLast?_cons_cons]

theorem lastOpen_closeLast (t : Nat) (es : List StatusInterval) :
    lastOpen (closeLast t es) = false := by
  unfold lastOpen
  rw [getLast?_closeLast]
  cases es.getLast? <;> simp

theorem closeOthers_fst (value : String) (t : Nat) (p : String × List StatusInterval) :
    (closeOthers value t p).1 = p.1 := by
  unfold closeOthers
  split <;> rfl

theorem record_if_eq (es : List StatusInterval) (t : Nat) :
    (if es = [] then ([⟨t, none⟩] : List StatusInterval) else es ++ [⟨t, none⟩])
      = es ++ [⟨t, none⟩] := by
  split
  · simp_all
  · rfl

theorem set_status_update_tracker (w : Watch) (value : String) (t : Nat) :
    (w.set_status_update value t).status_tracker =
      (trackerSet w.status_tracker value
        (trackerGet w.status_tracker value ++ [⟨t, none⟩])).map (closeOthers value t) := by
  unfold Watch.set_status_update
  rw [record_if_eq]

theorem set_current_status_of_step (w : Watch) (value : String) (t : Nat)
    (h : ¬(w.current_status = some value ∧ trackerGet w.status_tracker value ≠ [])) :
    w.set_current_status value t = w.set_status_update value t := by
  unfold Watch.set_current_status
  exact if_neg h

theorem current_status_set_step (w : Watch) (value : String) (t : Nat)
    (h : ¬(w.current_status = some value ∧ trackerGet w.status_tracker value ≠ [])) :
    (w.set_current_status value t).current_status = some value := by
  rw [set_current_status_of_step w value t h]
  rfl

theorem map_fst_map_of_fst (tr : List (String × List StatusInterval))
    (f : String × List StatusInterval → String × List StatusInterval)
    (hf : ∀ p, (f p).1 = p.1) :
    (tr.map f).map Prod.fst = tr.map Prod.fst := by
  rw [List.map_map]
  exact List.map_congr_left (fun p _ => hf p)

theorem trackerGet_map (tr : List (String × List StatusInterval)) (k : String)
    (f : String × List StatusInterval → String × List StatusInterval)
    (hf : ∀ p, (f p).1 = p.1) :
    trackerGet (tr.map f) k
      = ((tr.find? (fun p => p.1 == k)).map (fun p => (f p).2)).getD [] := by
  unfold trackerGet
  rw [List.find?_map, Option.map_map]
  have hpred : ((fun p : String × List StatusInterval => p.1 == k) ∘ f)
      = (fun p : String × List StatusInterval => p.1 == k) := by
    funext p
    simp only [Function.comp_apply, hf p]
  rw [hpred]
  rfl

theorem trackerSet_fst (k : String) (v : List StatusInterval)
    (p : String × List StatusInterval) :
    ((fun p : String × List StatusInterval => if p.1 = k then (p.1, v) else p) p).1 = p.1 := by
  dsimp only
  split <;> rfl

theorem trackerGet_set_self (tr : List (String × List StatusInterval)) (k : String)
    (v : List StatusInterval) (hmem : k ∈ tr.map Prod.fst) :
    trackerGet (trackerSet tr k v) k = v := by
  unfold trackerSet
  rw [trackerGet_map tr k _ (trackerSet_fst k v)]
  obtain ⟨p, hp, hpk⟩ := List.mem_map.1 hmem
  have hsome : (tr.find? (fun p => p.1 == k)).isSome = true :=
    List.find?_isSome.2 ⟨p, hp, by simp [hpk]⟩
  obtain ⟨p0, hfind⟩ := Option.isSome_iff_exists.1 hsome
  rw [hfind]
  have hk : p0.1 = k := by simpa using List.find?_some hfind
  simp [hk]

theorem trackerGet_set_other (tr : List (String × List StatusInterval)) (k : String)
    (v : List StatusInterval) (l : String) (hne : l ≠ k) :
    trackerGet (trackerSet tr k v) l = trackerGet tr l := by
  unfold trackerSet
  rw [trackerGet_map tr l _ (trackerSet_fst k v)]
  unfold trackerGet
  cases hfind : tr.find? (fun p => p.1 == l) with
  | none => simp
  | some p0 =>
    have hl : p0.1 = l := by simpa using List.find?_some hfind
    simp [hl, hne]

theorem trackerGet_closeOthers_self (tr : List (String × List StatusInterval))
    (value : String) (t : Nat) :
    trackerGet (tr.map (closeOthers value t)) value = trackerGet tr value := by
  rw [trackerGet_map tr value _ (closeOthers_fst value t)]
  unfold trackerGet
  cases hfind : tr.find? (fun p => p.1 == value) with
  | none => simp
  | some p0 =>
    have hl : p0.1 = value := by simpa using List.find?_some hfind
    simp [closeOthers, hl]

theorem trackerGet_closeOthers_other (tr : List (String × List StatusInterval))
    (value : String) (t : Nat) (l : String) (hne : l ≠ value) :
    trackerGet (tr.map (closeOthers value t)) l
      = if lastOpen (trackerGet tr l) then closeLast t (trackerGet tr l)
        else trackerGet tr l := by
  rw [trackerGet_map tr l _ (closeOthers_fst value t)]
  unfold trackerGet
  cases hfind : tr.find? (fun p => p.1 == l) with
  | none => simp [lastOpen_nil]
  | some p0 =>
    have hl : p0.1 = l := by simpa using List.find?_some hfind
    simp only [Option.map_some', Option.getD_some]
    unfold closeOthers
    by_cases ho : lastOpen p0.2
    · rw [if_pos ⟨by rw [hl]; exact hne, ho⟩]
      simp [ho]
    · rw [if_neg (by simp [ho])]
      simp [ho]

theorem trackerGet_set_current_self (w : Watch) (value : String) (t : Nat)
    (hstep : ¬(w.current_status = some value ∧ trackerGet w.status_tracker value ≠ []))
    (hmem : value ∈ trackerKeys w) :
    trackerGet (w.set_current_status value t).status_tracker value
      = trackerGet w.status_tracker value ++ [⟨t, none⟩] := by
  rw [set_current_status_of_step w value t hstep, set_status_update_tracker,
    trackerGet_closeOthers_self, trackerGet_set_self _ _ _ hmem]

theorem trackerGet_set_current_other (w : Watch) (value : String) (t : Nat) (l : String)
    (hstep : ¬(w.current_status = some value ∧ trackerGet w.status_tracker value ≠ []))
    (hne : l ≠ value) :
    trackerGet (w.set_current_status value t).status_tracker l
      = if lastOpen (trackerGet w.status_tracker l)
        then closeLast t (trackerGet w.status_tracker l)
        else trackerGet w.status_tracker l := by
  rw [set_current_status_of_step w value t hstep, set_status_update_tracker,
    trackerGet_closeOthers_other _ _ _ _ hne, trackerGet_set_other _ _ _ _ hne]

theorem tracker_init (labels : List String) (identifier : String) (data : Option EntityRec)
    (t : Nat) :
    (Watch.init labels identifier data t).status_tracker
      = initWithStatus labels (data.map (fun e => e.status)) t := rfl

theorem initTracker_cons (a : String) (as : List String) :
    initTracker (a :: as) = (a, []) :: initTracker as := rfl

theorem trackerSet_cons (p : String × List StatusInterval)
    (tr : List (String × List StatusInterval)) (k : String) (v : List StatusInterval) :
    trackerSet (p :: tr) k v = (if p.1 = k then (p.1, v) else p) :: trackerSet tr k v := rfl

theorem map_fst_initTracker (labels : List String) :
    (initTracker labels).map Prod.fst = labels := by
  unfold initTracker
  rw [List.map_map]
  have h : (Prod.fst ∘ fun s : String => (s, ([] : List StatusInterval))) = id := by
    funext s
    rfl
  rw [h, List.map_id]

theorem trackerKeys_init (labels : List String) (identifier : String)
    (data : Option EntityRec) (t : Nat) :
    trackerKeys (Watch.init labels identifier data t) = labels := by
  unfold trackerKeys
  rw [tracker_init]
  unfold initWithStatus
  split
  · unfold trackerSet
    rw [map_fst_map_of_fst _ _ (trackerSet_fst _ _)]
    exact map_fst_initTracker labels
  · exact map_fst_initTracker labels

theorem trackerKeys_set_status_update (w : Watch) (value : String) (t : Nat) :
    trackerKeys (w.set_status_update value t) = trackerKeys w := by
  unfold trackerKeys
  rw [set_status_update_tracker]
  unfold trackerSet
  rw [map_fst_map_of_fst _ _ (closeOthers_fst value t),
    map_fst_map_of_fst _ _ (trackerSet_fst _ _)]

theorem trackerKeys_set_current (w : Watch) (value : String) (t : Nat) :
    trackerKeys (w.set_current_status value t) = trackerKeys w := by
  unfold Watch.set_current_status
  split
  · rfl
  · exact trackerKeys_set_status_update w value t

theorem openCount_set_status_update (w : Watch) (value : String) (t : Nat) :
    openCount (w.set_status_update value t) = List.count value (trackerKeys w) := by
  unfold openCount
  rw [set_status_update_tracker]
  unfold trackerSet
  rw [List.countP_map, List.countP_map]
  unfold trackerKeys
  rw [List.count_eq_countP, List.countP_map]
  apply List.countP_congr
  intro p _
  by_cases hp : p.1 = value
  · simp only [Function.comp_apply, if_pos hp]
    unfold closeOthers
    rw [if_neg (by simp [hp])]
    simp [lastOpen_concat, hp]
  · simp only [Function.comp_apply, if_neg hp]
    unfold closeOthers
    by_cases ho : lastOpen p.2 = true
    · rw [if_pos ⟨hp, ho⟩]
      simp [lastOpen_closeLast, hp]
    · rw [if_neg (by simp [ho])]
      exact iff_of_false ho (by simp [hp])

theorem openCount_set_current_le (w : Watch) (value : String) (t : Nat)
    (hnd : (trackerKeys w).Nodup) (h1 : openCount w ≤ 1) :
    openCount (w.set_current_status value t) ≤ 1 := by
  unfold Watch.set_current_status
  split
  · exact h1
  · rw [openCount_set_status_update]
    exact List.nodup_iff_count_le_one.mp hnd value

theorem countP_lastOpen_trackerSet_init (k : String) (v : List StatusInterval) :
    ∀ labels : List String,
    List.countP (fun p => lastOpen p.2) (trackerSet (initTracker labels) k v)
      = if lastOpen v then List.count k labels else 0
  | [] => by cases h : lastOpen v <;> simp [trackerSet, initTracker, h]
  | a :: as => by
    rw [initTracker_cons, trackerSet_cons, List.countP_cons,
      countP_lastOpen_trackerSet_init k v as, List.count_cons]
    by_cases hak : a = k <;> by_cases hv : lastOpen v = true <;>
      simp [hak, hv, lastOpen_nil]

theorem countP_lastOpen_initTracker (labels : List String) :
    List.countP (fun p => lastOpen p.2) (initTracker labels) = 0 := by
  rw [List.countP_eq_zero]
  intro p hp
  obtain ⟨s, _, hs⟩ := List.mem_map.1 hp
  rw [← hs]
  simp [lastOpen_nil]

theorem openCount_init_le (labels : List String) (hnd : labels.Nodup)
    (identifier : String) (data : Option EntityRec) (t : Nat) :
    openCount (Watch.init labels identifier data t) ≤ 1 := by
  unfold openCount
  rw [tracker_init]
  unfold initWithStatus
  split
  · rw [countP_lastOpen_trackerSet_init, lastOpen_concat]
    simp only [if_true]
    exact List.nodup_iff_count_le_one.mp hnd _
  · rw [countP_lastOpen_initTracker]
    exact Nat.zero_le 1

theorem invariant_applyOp (w : Watch) (op : WOp)
    (hnd : (trackerKeys w).Nodup) (h1 : openCount w ≤ 1) :
    (trackerKeys (w.applyOp op)).Nodup ∧ openCount (w.applyOp op) ≤ 1 := by
  cases op with
  | set_status v t =>
    exact ⟨by rw [Watch.applyOp, trackerKeys_set_current]; exact hnd,
      openCount_set_current_le w v t hnd h1⟩
  | set_data e t =>
    constructor
    · show (trackerKeys (Watch.set_data w e t)).Nodup
      unfold Watch.set_data
      rw [trackerKeys_set_current]
      exact hnd
    · show openCount (Watch.set_data w e t) ≤ 1
      unfold Watch.set_data
      exact openCount_set_current_le _ _ _ hnd h1

theorem invariant_applyOps (ops : List WOp) : ∀ w : Watch,
    (trackerKeys w).Nodup → openCount w ≤ 1 →
    (trackerKeys (w.applyOps ops)).Nodup ∧ openCount (w.applyOps ops) ≤ 1 := by
  induction ops with
  | nil => exact fun w hnd h1 => ⟨hnd, h1⟩
  | cons op ops ih =>
    intro w hnd h1
    have hstep := invariant_applyOp w op hnd h1
    have : w.applyOps (op :: ops) = (w.applyOp op).applyOps ops := by
      unfold Watch.applyOps
      rw [List.foldl_cons]
    rw [this]
    exact ih _ hstep.1 hstep.2

/-- C1: starting from any construction (with or without initial data) and
applying any sequence of `data` / `current_status` setter assignments, at most
one status label's last interval is open (`end = None`).  `labels` are the
member names of the status enumeration, which Python guarantees distinct. -/
theorem single_open_interval_invariant (labels : List String) (hnd : labels.Nodup)
    (identifier : String) (data : Option EntityRec) (t0 : Nat) (ops : List WOp) :
    openCount ((Watch.init labels identifier data t0).applyOps ops) ≤ 1 := by
  have hk : trackerKeys (Watch.init labels identifier data t0) = labels :=
    trackerKeys_init labels identifier data t0
  exact (invariant_applyOps ops _ (by rw [hk]; exact hnd)
    (openCount_init_le labels hnd identifier data t0)).2

theorem single_open_interval_invariant_witness :
    (["PENDING", "RUNNING", "COMPLETED"] : List String).Nodup ∧
    openCount ((Watch.init ["PENDING", "RUNNING", "COMPLETED"] "entity_1"
      (some ⟨"PENDING", "s"⟩) 0).applyOps
      [.set_status "RUNNING" 5, .set_data ⟨"COMPLETED", "s"⟩ 9,
        .set_status "RUNNING" 11]) ≤ 1 :=
  ⟨by decide,
    single_open_interval_invariant ["PENDING", "RUNNING", "COMPLETED"] (by decide)
      "entity_1" (some ⟨"PENDING", "s"⟩) 0
      [.set_status "RUNNING" 5, .set_data ⟨"COMPLETED", "s"⟩ 9, .set_status "RUNNING" 11]⟩

/-- C2: once the current status is `S` and `S` has a recorded interval, setting
the status to `S` again is the early-return branch of the setter: the tracker
and the current status are unchanged. -/
theorem idempotent_status_set (w : Watch) (S : String) (t : Nat)
    (hcs : w.current_status = some S)
    (hne : trackerGet w.status_tracker S ≠ []) :
    (w.set_current_status S t).status_tracker = w.status_tracker ∧
    (w.set_current_status S t).current_status = w.current_status := by
  unfold Watch.set_current_status
  rw [if_pos ⟨hcs, hne⟩]
  exact ⟨rfl, rfl⟩

theorem idempotent_status_set_witness :
    ((Watch.init ["PENDING", "RUNNING", "COMPLETED"] "entity_1"
        (some ⟨"PENDING", "s"⟩) 0).current_status = some "PENDING" ∧
      trackerGet (Watch.init ["PENDING", "RUNNING", "COMPLETED"] "entity_1"
        (some ⟨"PENDING", "s"⟩) 0).status_tracker "PENDING" ≠ []) ∧
    ((Watch.init ["PENDING", "RUNNING", "COMPLETED"] "entity_1"
        (some ⟨"PENDING", "s"⟩) 0).set_current_status "PENDING" 7).status_tracker
      = (Watch.init ["PENDING", "RUNNING", "COMPLETED"] "entity_1"
        (some ⟨"PENDING", "s"⟩) 0).status_tracker ∧
    ((Watch.init ["PENDING", "RUNNING", "COMPLETED"] "entity_1"
        (some ⟨"PENDING", "s"⟩) 0).set_current_status "PENDING" 7).current_status
      = (Watch.init ["PENDING", "RUNNING", "COMPLETED"] "entity_1"
        (some ⟨"PENDING", "s"⟩) 0).current_status :=
  ⟨⟨by decide, by decide⟩,
    idempotent_status_set _ "PENDING" 7 (by decide) (by decide)⟩

theorem mem_of_trackerGet (tr : List (String × List StatusInterval)) (l : String)
    (i : StatusInterval) (hi : i ∈ trackerGet tr l) :
    ∃ p ∈ tr, i ∈ p.2 := by
  unfold trackerGet at hi
  cases hfind : tr.find? (fun p => p.1 == l) with
  | none =>
    rw [hfind] at hi
    simp at hi
  | some p0 =>
    rw [hfind] at hi
    simp only [Option.map_some', Option.getD_some] at hi
    exact ⟨p0, List.mem_of_find?_eq_some hfind, hi⟩

theorem mem_of_getLast?_eq_some (es : List StatusInterval) (i : StatusInterval)
    (h : es.getLast? = some i) : i ∈ es := by
  obtain ⟨h0, heq⟩ := List.mem_getLast?_eq_getLast (Option.mem_def.mpr h)
  rw [heq]
  exact List.getLast_mem h0

/-- C3: setting the current status to a new label `value` at clock reading `t`
closes the open interval of any other status `old` at exactly `t`, opens the
`value` interval with start exactly `t`, and — since every timestamp already
recorded came from an earlier reading of the same clock (`startsBoundedBy w t`)
— the closed interval satisfies `start ≤ t`. -/
theorem monotonic_interval_closing (w : Watch) (value old : String) (t : Nat)
    (hb : startsBoundedBy w t)
    (hnew : w.current_status ≠ some value)
    (hne : old ≠ value)
    (hopen : lastOpen (trackerGet w.status_tracker old) = true)
    (hmem : value ∈ trackerKeys w) :
    ∃ i : StatusInterval,
      (trackerGet w.status_tracker old).getLast? = some i ∧
      (trackerGet (w.set_current_status value t).status_tracker old).getLast?
        = some { i with «end» := some t } ∧
      (trackerGet (w.set_current_status value t).status_tracker value).getLast?
        = some ⟨t, none⟩ ∧
      i.start ≤ t := by
  have hstep : ¬(w.current_status = some value ∧ trackerGet w.status_tracker value ≠ []) :=
    fun h => hnew h.1
  cases hlast : (trackerGet w.status_tracker old).getLast? with
  | none =>
    unfold lastOpen at hopen
    rw [hlast] at hopen
    simp at hopen
  | some i =>
    refine ⟨i, rfl, ?_, ?_, ?_⟩
    · rw [trackerGet_set_current_other w value t old hstep hne, if_pos hopen,
        getLast?_closeLast, hlast]
      rfl
    · rw [trackerGet_set_current_self w value t hstep hmem, List.getLast?_concat]
    · obtain ⟨p, hp, hip⟩ := mem_of_trackerGet _ _ _
        (mem_of_getLast?_eq_some _ _ hlast)
      exact hb p hp i hip

theorem monotonic_interval_closing_witness :
    (startsBoundedBy (Watch.init ["PENDING", "RUNNING", "COMPLETED"] "entity_1"
        (some ⟨"PENDING", "s"⟩) 0) 5 ∧
      (Watch.init ["PENDING", "RUNNING", "COMPLETED"] "entity_1"
        (some ⟨"PENDING", "s"⟩) 0).current_status ≠ some "RUNNING" ∧
      "PENDING" ≠ "RUNNING" ∧
      lastOpen (trackerGet (Watch.init ["PENDING", "RUNNING", "COMPLETED"] "entity_1"
        (some ⟨"PENDING", "s"⟩) 0).status_tracker "PENDING") = true ∧
      "RUNNING" ∈ trackerKeys (Watch.init ["PENDING", "RUNNING", "COMPLETED"] "entity_1"
        (some ⟨"PENDING", "s"⟩) 0)) ∧
    (∃ i : StatusInterval,
      (trackerGet (Watch.init ["PENDING", "RUNNING", "COMPLETED"] "entity_1"
        (some ⟨"PENDING", "s"⟩) 0).status_tracker "PENDING").getLast? = some i ∧
      (trackerGet ((Watch.init ["PENDING", "RUNNING", "COMPLETED"] "entity_1"
        (some ⟨"PENDING", "s"⟩) 0).set_current_status "RUNNING" 5).status_tracker
          "PENDING").getLast? = some { i with «end» := some 5 } ∧
      (trackerGet ((Watch.init ["PENDING", "RUNNING", "COMPLETED"] "entity_1"
        (some ⟨"PENDING", "s"⟩) 0).set_current_status "RUNNING" 5).status_tracker
          "RUNNING").getLast? = some ⟨5, none⟩ ∧
      i.start ≤ 5) :=
  ⟨⟨by decide, by decide, by decide, by decide, by decide⟩,
    monotonic_interval_closing _ "RUNNING" "PENDING" 5 (by decide) (by decide)
      (by decide) (by decide) (by decide)⟩

/-- The watch of the status-transition scenario: no initial data, then the
`current_status` setter invoked with `CREATING` at `t=0`, `PROCESSING` at
`t=5`, and `COMPLETED` at `t=12`. -/
def timelineWatch (labels : List String) (identifier : String) : Watch :=
  (((Watch.init labels identifier none 0).set_current_status "CREATING" 0).set_current_status
    "PROCESSING" 5).set_current_status "COMPLETED" 12

theorem trackerGet_initTracker (labels : List String) (l : String) :
    trackerGet (initTracker labels) l = [] := by
  unfold trackerGet initTracker
  rw [List.find?_map, Option.map_map]
  cases labels.find? ((fun p : String × List StatusInterval => p.1 == l)
    ∘ fun s => (s, [])) <;> rfl

theorem tracker_init_none (labels : List String) (identifier : String) (t : Nat) :
    (Watch.init labels identifier none t).status_tracker = initTracker labels := rfl

/-- C8: the tracker resulting from the `CREATING`(0) → `PROCESSING`(5) →
`COMPLETED`(12) scenario: one closed interval for `CREATING` and `PROCESSING`,
one open interval for `COMPLETED`, and the empty sequence for every other
status label of the enumeration. -/
theorem status_transition_timeline (labels : List String) (identifier : String)
    (hC : "CREATING" ∈ labels) (hP : "PROCESSING" ∈ labels)
    (hCo : "COMPLETED" ∈ labels) :
    trackerGet (timelineWatch labels identifier).status_tracker "CREATING"
      = [⟨0, some 5⟩] ∧
    trackerGet (timelineWatch labels identifier).status_tracker "PROCESSING"
      = [⟨5, some 12⟩] ∧
    trackerGet (timelineWatch labels identifier).status_tracker "COMPLETED"
      = [⟨12, none⟩] ∧
    ∀ l : String, l ≠ "CREATING" → l ≠ "PROCESSING" → l ≠ "COMPLETED" →
      trackerGet (timelineWatch labels identifier).status_tracker l = [] := by
  have hg0 : ∀ l, trackerGet (Watch.init labels identifier none 0).status_tracker l = [] := by
    intro l
    rw [tracker_init_none, trackerGet_initTracker]
  have hk0 : trackerKeys (Watch.init labels identifier none 0) = labels :=
    trackerKeys_init labels identifier none 0
  have hstep1 : ¬((Watch.init labels identifier none 0).current_status = some "CREATING" ∧
      trackerGet (Watch.init labels identifier none 0).status_tracker "CREATING" ≠ []) :=
    fun h => by exact absurd h.1 (by intro hx; exact Option.noConfusion hx)
  set w0 := Watch.init labels identifier none 0 with hw0
  set w1 := w0.set_current_status "CREATING" 0 with hw1
  have hg1C : trackerGet w1.status_tracker "CREATING" = [⟨0, none⟩] := by
    rw [hw1, trackerGet_set_current_self w0 "CREATING" 0 hstep1 (by rw [hk0]; exact hC), hg0]
    rfl
  have hg1 : ∀ l, l ≠ "CREATING" → trackerGet w1.status_tracker l = [] := by
    intro l hl
    rw [hw1, trackerGet_set_current_other w0 "CREATING" 0 l hstep1 hl, hg0]
    simp [lastOpen_nil]
  have hc1 : w1.current_status = some "CREATING" :=
    current_status_set_step w0 "CREATING" 0 hstep1
  have hk1 : trackerKeys w1 = labels := by
    rw [hw1, trackerKeys_set_current, hk0]
  have hstep2 : ¬(w1.current_status = some "PROCESSING" ∧
      trackerGet w1.status_tracker "PROCESSING" ≠ []) := by
    intro h
    rw [hc1] at h
    exact absurd h.1 (by decide)
  set w2 := w1.set_current_status "PROCESSING" 5 with hw2
  have hg2P : trackerGet w2.status_tracker "PROCESSING" = [⟨5, none⟩] := by
    rw [hw2, trackerGet_set_current_self w1 "PROCESSING" 5 hstep2 (by rw [hk1]; exact hP),
      hg1 "PROCESSING" (by decide)]
    rfl
  have hg2C : trackerGet w2.status_tracker "CREATING" = [⟨0, some 5⟩] := by
    rw [hw2, trackerGet_set_current_other w1 "PROCESSING" 5 "CREATING" hstep2 (by decide),
      hg1C]
    decide
  have hg2 : ∀ l, l ≠ "CREATING" → l ≠ "PROCESSING" →
      trackerGet w2.status_tracker l = [] := by
    intro l hlC hlP
    rw [hw2, trackerGet_set_current_other w1 "PROCESSING" 5 l hstep2 hlP, hg1 l hlC]
    simp [lastOpen_nil]
  have hc2 : w2.current_status = some "PROCESSING" :=
    current_status_set_step w1 "PROCESSING" 5 hstep2
  have hk2 : trackerKeys w2 = labels := by
    rw [hw2, trackerKeys_set_current, hk1]
  have hstep3 : ¬(w2.current_status = some "COMPLETED" ∧
      trackerGet w2.status_tracker "COMPLETED" ≠ []) := by
    intro h
    rw [hc2] at h
    exact absurd h.1 (by decide)
  have htl : timelineWatch labels identifier = w2.set_current_status "COMPLETED" 12 := rfl
  refine ⟨?_, ?_, ?_, ?_⟩
  · rw [htl, trackerGet_set_current_other w2 "COMPLETED" 12 "CREATING" hstep3 (by decide),
      hg2C]
    decide
  · rw [htl, trackerGet_set_current_other w2 "COMPLETED" 12 "PROCESSING" hstep3 (by decide),
      hg2P]
    decide
  · rw [htl, trackerGet_set_current_self w2 "COMPLETED" 12 hstep3 (by rw [hk2]; exact hCo),
      hg2 "COMPLETED" (by decide) (by decide)]
    decide
  · intro l hlC hlP hlCo
    rw [htl, trackerGet_set_current_other w2 "COMPLETED" 12 l hstep3 hlCo, hg2 l hlC hlP]
    simp [lastOpen_nil]

theorem status_transition_timeline_witness :
    ("CREATING" ∈ ["CREATING", "PROCESSING", "COMPLETED", "ERROR"] ∧
      "PROCESSING" ∈ ["CREATING", "PROCESSING", "COMPLETED", "ERROR"] ∧
      "COMPLETED" ∈ ["CREATING", "PROCESSING", "COMPLETED", "ERROR"]) ∧
    (trackerGet (timelineWatch ["CREATING", "PROCESSING", "COMPLETED", "ERROR"]
        "task-1").status_tracker "CREATING" = [⟨0, some 5⟩] ∧
      trackerGet (timelineWatch ["CREATING", "PROCESSING", "COMPLETED", "ERROR"]
        "task-1").status_tracker "PROCESSING" = [⟨5, some 12⟩] ∧
      trackerGet (timelineWatch ["CREATING", "PROCESSING", "COMPLETED", "ERROR"]
        "task-1").status_tracker "COMPLETED" = [⟨12, none⟩] ∧
      ∀ l : String, l ≠ "CREATING" → l ≠ "PROCESSING" → l ≠ "COMPLETED" →
        trackerGet (timelineWatch ["CREATING", "PROCESSING", "COMPLETED", "ERROR"]
          "task-1").status_tracker l = []) :=
  ⟨⟨by decide, by decide, by decide⟩,
    status_transition_timeline ["CREATING", "PROCESSING", "COMPLETED", "ERROR"] "task-1"
      (by decide) (by decide) (by decide)⟩

/-! Navigation (`WatchGroupDisplay.update`). -/

theorem update_next_key (d : WatchGroupDisplay) (h : d.watches.length ≠ 0) :
    d.update "l" = .ok { d with current_tab := (d.current_tab + 1) % (d.watches.length : Int) } := by
  unfold WatchGroupDisplay.update
  rw [if_neg (by decide), if_pos (by decide), if_neg h]

theorem runKeys_next (w : List Watch) (hw : w.length ≠ 0) (k : Nat) :
    ∀ tab : Int,
    runKeys ⟨tab, w⟩ (List.replicate (k + 1) "l")
      = .ok ⟨(tab + (k : Int) + 1) % (w.length : Int), w⟩ := by
  induction k with
  | zero =>
    intro tab
    show List.foldl stepKey (UpdateOutcome.ok ⟨tab, w⟩) ["l"] = _
    rw [List.foldl_cons, List.foldl_nil]
    show WatchGroupDisplay.update ⟨tab, w⟩ "l" = _
    rw [update_next_key ⟨tab, w⟩ hw]
    norm_num
  | succ k ih =>
    intro tab
    show List.foldl stepKey (UpdateOutcome.ok ⟨tab, w⟩) (List.replicate (k + 2) "l") = _
    rw [List.replicate_succ, List.foldl_cons]
    have hstep : stepKey (UpdateOutcome.ok ⟨tab, w⟩) "l"
        = .ok ⟨(tab + 1) % (w.length : Int), w⟩ := by
      show WatchGroupDisplay.update ⟨tab, w⟩ "l" = _
      rw [update_next_key ⟨tab, w⟩ hw]
    rw [hstep]
    have hrest := ih ((tab + 1) % (w.length : Int))
    show runKeys ⟨(tab + 1) % (w.length : Int), w⟩ (List.replicate (k + 1) "l") = _
    rw [hrest]
    congr 2
    rw [add_assoc ((tab + 1) % (w.length : Int)) (k : Int) 1, Int.emod_add_emod]
    push_cast
    ring_nf

/-- C4 as stated is false on the code: with an empty watch list, the next-tab
key makes `update()` evaluate `(self.current_tab + 1) % 0`, which raises
`ZeroDivisionError` — not a no-op, and an exception is raised. -/
theorem nav_empty_modulo_counterexample :
    WatchGroupDisplay.update ⟨0, []⟩ "l" = UpdateOutcome.zeroDivisionError ∧
    WatchGroupDisplay.update ⟨0, []⟩ "RIGHT" = UpdateOutcome.zeroDivisionError ∧
    WatchGroupDisplay.update ⟨0, []⟩ "l" ≠ UpdateOutcome.ok ⟨0, []⟩ := by
  refine ⟨rfl, rfl, ?_⟩
  decide

/-- C4 amended: for `N ≥ 1` watches and a tab index in range (as established
by construction and by `update` itself), `N` next-tab keys return the display
to its original state; with `N = 0`, a next-tab or previous-tab key raises
`ZeroDivisionError` (`% 0`) instead of being a no-op. -/
theorem nav_wraparound_amended (d : WatchGroupDisplay)
    (h0 : 0 ≤ d.current_tab) (hN : d.current_tab < (d.watches.length : Int)) :
    runKeys d (List.replicate d.watches.length "l") = .ok d ∧
    ∀ tab : Int,
      WatchGroupDisplay.update ⟨tab, []⟩ "l" = .zeroDivisionError ∧
      WatchGroupDisplay.update ⟨tab, []⟩ "RIGHT" = .zeroDivisionError ∧
      WatchGroupDisplay.update ⟨tab, []⟩ "j" = .zeroDivisionError ∧
      WatchGroupDisplay.update ⟨tab, []⟩ "LEFT" = .zeroDivisionError := by
  obtain ⟨tab, ws⟩ := d
  have h0w : 0 ≤ tab := h0
  have hNw : tab < (ws.length : Int) := hN
  constructor
  · obtain ⟨k, hk⟩ : ∃ k, ws.length = k + 1 := by
      cases hlen : ws.length with
      | zero =>
        rw [hlen] at hNw
        norm_num at hNw
        omega
      | succ k => exact ⟨k, rfl⟩
    show runKeys ⟨tab, ws⟩ (List.replicate ws.length "l") = UpdateOutcome.ok ⟨tab, ws⟩
    rw [hk, runKeys_next ws (by omega) k tab]
    congr 2
    rw [hk]
    push_cast
    have hmod := Int.add_mul_emod_self_left tab ((k : Int) + 1) 1
    rw [mul_one] at hmod
    rw [add_assoc, hmod]
    apply Int.emod_eq_of_lt h0w
    rw [hk] at hNw
    push_cast at hNw
    omega
  · intro tab2
    exact ⟨rfl, rfl, rfl, rfl⟩

theorem nav_wraparound_amended_witness :
    (0 ≤ sampleDisplay.current_tab ∧
      sampleDisplay.current_tab < (sampleDisplay.watches.length : Int)) ∧
    (runKeys sampleDisplay (List.replicate sampleDisplay.watches.length "l")
        = .ok sampleDisplay ∧
      ∀ tab : Int,
        WatchGroupDisplay.update ⟨tab, []⟩ "l" = .zeroDivisionError ∧
        WatchGroupDisplay.update ⟨tab, []⟩ "RIGHT" = .zeroDivisionError ∧
        WatchGroupDisplay.update ⟨tab, []⟩ "j" = .zeroDivisionError ∧
        WatchGroupDisplay.update ⟨tab, []⟩ "LEFT" = .zeroDivisionError) :=
  ⟨⟨by decide, by decide⟩, nav_wraparound_amended sampleDisplay (by decide) (by decide)⟩

/-! Session resolution (`WatchGroup.__init__`). -/

/-- C5: with no explicit session id and watches whose data spans two or more
distinct session ids, construction raises `ValueError` and
`_register_event_handlers` is never reached. -/
theorem session_uniqueness_enforcement (watches : List Watch) (ids : List String)
    (hids : watchSessionIds watches = some ids) (hmulti : 1 < ids.length) :
    resolveSession none watches = .valueErrorMultipleSessions ∧
    listenersRegistered (resolveSession none watches) = false := by
  have hres : resolveSession none watches = .valueErrorMultipleSessions := by
    unfold resolveSession
    rw [if_neg (by decide), hids]
    dsimp only
    rw [if_pos hmulti]
  exact ⟨hres, by rw [hres]; rfl⟩

theorem session_uniqueness_enforcement_witness :
    (watchSessionIds [Watch.init ["CREATING"] "t1" (some ⟨"CREATING", "sessA"⟩) 0,
        Watch.init ["CREATING"] "t2" (some ⟨"CREATING", "sessB"⟩) 0]
      = some ["sessA", "sessB"] ∧ 1 < (["sessA", "sessB"] : List String).length) ∧
    (resolveSession none [Watch.init ["CREATING"] "t1" (some ⟨"CREATING", "sessA"⟩) 0,
        Watch.init ["CREATING"] "t2" (some ⟨"CREATING", "sessB"⟩) 0]
      = .valueErrorMultipleSessions ∧
    listenersRegistered (resolveSession none
      [Watch.init ["CREATING"] "t1" (some ⟨"CREATING", "sessA"⟩) 0,
        Watch.init ["CREATING"] "t2" (some ⟨"CREATING", "sessB"⟩) 0]) = false) :=
  ⟨⟨by decide, by decide⟩,
    session_uniqueness_enforcement _ ["sessA", "sessB"] (by decide) (by decide)⟩

/-- C10: a truthy explicit session id short-circuits `if not self.session_id`:
no session ids are collected, no `ValueError` can be raised — even when the
watches span several sessions — and listeners are registered under the
supplied id. -/
theorem explicit_session_skips_uniqueness_check (s : String) (hs : s ≠ "")
    (watches : List Watch) :
    resolveSession (some s) watches = .listening s ∧
    listenersRegistered (resolveSession (some s) watches) = true := by
  have hres : resolveSession (some s) watches = .listening s := by
    unfold resolveSession
    rw [if_pos (by simp [strTruthy, hs])]
    rfl
  exact ⟨hres, by rw [hres]; rfl⟩

theorem explicit_session_skips_uniqueness_check_witness :
    ("sess-1" ≠ "" ∧
      watchSessionIds [Watch.init ["CREATING"] "t1" (some ⟨"CREATING", "sessA"⟩) 0,
        Watch.init ["CREATING"] "t2" (some ⟨"CREATING", "sessB"⟩) 0]
        = some ["sessA", "sessB"]) ∧
    (resolveSession (some "sess-1")
        [Watch.init ["CREATING"] "t1" (some ⟨"CREATING", "sessA"⟩) 0,
          Watch.init ["CREATING"] "t2" (some ⟨"CREATING", "sessB"⟩) 0]
      = .listening "sess-1" ∧
    listenersRegistered (resolveSession (some "sess-1")
      [Watch.init ["CREATING"] "t1" (some ⟨"CREATING", "sessA"⟩) 0,
        Watch.init ["CREATING"] "t2" (some ⟨"CREATING", "sessB"⟩) 0]) = true) :=
  ⟨⟨by decide, by decide⟩,
    explicit_session_skips_uniqueness_check "sess-1" (by decide) _⟩

/-! Autofill limit. -/

theorem dictInsert_length_le (ks : List String) (k : String) :
    (dictInsert ks k).length ≤ ks.length + 1 := by
  unfold dictInsert
  split
  · exact Nat.le_succ _
  · simp

theorem runTasksAutofill_inv (evs : List (EventTypes × String)) : ∀ st : GroupWatchState,
    st.watch_ids.length ≤ st.limit →
    (runTasksAutofill st evs).watch_ids.length ≤ st.limit := by
  induction evs with
  | nil => exact fun st h => h
  | cons ev evs ih =>
    intro st h
    obtain ⟨et, tid⟩ := ev
    show (match TasksWatchGroup.autofill st et tid with
      | (st', true) => st'
      | (st', false) => runTasksAutofill st' evs).watch_ids.length ≤ st.limit
    unfold TasksWatchGroup.autofill
    by_cases hcond : st.watch_ids.length < st.limit ∧ et = EventTypes.NEW_TASK
    · rw [if_pos hcond]
      obtain ⟨hlt, -⟩ := hcond
      have hlen := dictInsert_length_le st.watch_ids tid
      show (dictInsert st.watch_ids tid).length ≤ st.limit
      omega
    · rw [if_neg hcond]
      exact ih st h

theorem runResultsAutofill_inv (evs : List (EventTypes × String)) : ∀ st : GroupWatchState,
    st.watch_ids.length ≤ st.limit →
    (runResultsAutofill st evs).watch_ids.length ≤ st.limit ∧
    (runResultsAutofill st evs).limit = st.limit := by
  induction evs with
  | nil => exact fun st h => ⟨h, rfl⟩
  | cons ev evs ih =>
    intro st h
    obtain ⟨et, rid⟩ := ev
    have hstep : (ResultsWatchGroup.autofill st et rid).watch_ids.length ≤ st.limit ∧
        (ResultsWatchGroup.autofill st et rid).limit = st.limit := by
      unfold ResultsWatchGroup.autofill
      split
      · rename_i hcond
        obtain ⟨hlt, -⟩ := hcond
        have hlen := dictInsert_length_le st.watch_ids rid
        exact ⟨by show (dictInsert st.watch_ids rid).length ≤ st.limit; omega, rfl⟩
      · exact ⟨h, rfl⟩
    show (runResultsAutofill (ResultsWatchGroup.autofill st et rid) evs).watch_ids.length
        ≤ st.limit ∧
      (runResultsAutofill (ResultsWatchGroup.autofill st et rid) evs).limit = st.limit
    have hrec := ih (ResultsWatchGroup.autofill st et rid)
      (by rw [hstep.2]; exact hstep.1)
    rw [hstep.2] at hrec
    exact hrec

/-- C6: starting from at most `L` watches, no autofill event stream — for the
tasks group or the results group — ever pushes the number of watches above
`L`: the callback only inserts while `len(watches) < limit`, and a dict insert
grows the key set by at most one.  Quantifying over every event list covers
every intermediate point of a longer stream. -/
theorem autofill_respects_limit (L : Nat) (ids0 : List String) (h : ids0.length ≤ L)
    (taskEvents resultEvents : List (EventTypes × String)) :
    (runTasksAutofill ⟨ids0, L⟩ taskEvents).watch_ids.length ≤ L ∧
    (runResultsAutofill ⟨ids0, L⟩ resultEvents).watch_ids.length ≤ L :=
  ⟨runTasksAutofill_inv taskEvents ⟨ids0, L⟩ h,
    (runResultsAutofill_inv resultEvents ⟨ids0, L⟩ h).1⟩

theorem autofill_respects_limit_witness :
    (["a"] : List String).length ≤ 2 ∧
    (runTasksAutofill ⟨["a"], 2⟩ [(.NEW_TASK, "b"), (.NEW_TASK, "c"),
      (.NEW_TASK, "d")]).watch_ids.length ≤ 2 ∧
    (runResultsAutofill ⟨["a"], 2⟩ [(.NEW_RESULT, "b"), (.NEW_RESULT, "c"),
      (.NEW_RESULT, "d")]).watch_ids.length ≤ 2 :=
  ⟨by decide,
    autofill_respects_limit 2 ["a"] (by decide)
      [(.NEW_TASK, "b"), (.NEW_TASK, "c"), (.NEW_TASK, "d")]
      [(.NEW_RESULT, "b"), (.NEW_RESULT, "c"), (.NEW_RESULT, "d")]⟩

/-- C7 describes the intended behaviour, but the tasks code cannot deliver it:
`TasksWatchGroup._init_populate_watches` builds `TaskWatch(task_id)` with
`data = None` and immediately calls `refresh`, whose first statement
`self.data.refresh(client)` dereferences `None`.  With `entity_ids =
["t1", "t2"]` and a stub client answering `CREATING` for every id, population
raises `AttributeError` instead of producing two `CREATING` watches. -/
theorem explicit_ids_populate_crashes :
    tasksPopulateExplicit ["CREATING", "PROCESSING", "COMPLETED", "ERROR"]
      (fun _ => ⟨"CREATING", "session-1"⟩) 0 ["t1", "t2"]
      = .error .attributeError := rfl

/-! Timeline row ordering (`_create_status_display`). -/

theorem charListLt_total : ∀ as bs : List Char,
    charListLt as bs = true ∨ charListLt bs as = true ∨ as = bs
  | [], [] => Or.inr (Or.inr rfl)
  | [], _ :: _ => Or.inl rfl
  | _ :: _, [] => Or.inr (Or.inl rfl)
  | a :: as, b :: bs => by
    rcases lt_trichotomy a b with hab | hab | hab
    · left
      unfold charListLt
      rw [if_pos hab]
    · subst hab
      rcases charListLt_total as bs with h | h | h
      · left
        unfold charListLt
        rw [if_neg (lt_irrefl a), if_neg (lt_irrefl a)]
        exact h
      · right
        left
        unfold charListLt
        rw [if_neg (lt_irrefl a), if_neg (lt_irrefl a)]
        exact h
      · right
        right
        rw [h]
    · right
      left
      unfold charListLt
      rw [if_pos hab]

theorem charListLt_trans : ∀ as bs cs : List Char,
    charListLt as bs = true → charListLt bs cs = true → charListLt as cs = true := by
  intro as
  induction as with
  | nil =>
    intro bs cs h1 h2
    cases bs with
    | nil => simp [charListLt] at h1
    | cons b bs =>
      cases cs with
      | nil => simp [charListLt] at h2
      | cons c cs => rfl
  | cons a as ih =>
    intro bs cs h1 h2
    cases bs with
    | nil => simp [charListLt] at h1
    | cons b bs =>
      cases cs with
      | nil => simp [charListLt] at h2
      | cons c cs =>
        unfold charListLt at h1 h2 ⊢
        by_cases hab : a < b
        · rw [if_pos hab] at h1
          by_cases hbc : b < c
          · rw [if_pos (lt_trans hab hbc)]
          · by_cases hcb : c < b
            · rw [if_neg hbc, if_pos hcb] at h2
              exact absurd h2 (by simp)
            · have hbceq : b = c := le_antisymm (not_lt.1 hcb) (not_lt.1 hbc)
              subst hbceq
              rw [if_pos hab]
        · by_cases hba : b < a
          · rw [if_neg hab, if_pos hba] at h1
            exact absurd h1 (by simp)
          · have habeq : a = b := le_antisymm (not_lt.1 hba) (not_lt.1 hab)
            subst habeq
            rw [if_neg (lt_irrefl a), if_neg (lt_irrefl a)] at h1
            by_cases hac : a < c
            · rw [if_pos hac]
            · by_cases hca : c < a
              · rw [if_neg hac, if_pos hca] at h2
                exact absurd h2 (by simp)
              · have haceq : a = c := le_antisymm (not_lt.1 hca) (not_lt.1 hac)
                subst haceq
                rw [if_neg (lt_irrefl a), if_neg (lt_irrefl a)] at h2 ⊢
                exact ih bs cs h1 h2

theorem pyStrLE_total (s₁ s₂ : String) : pyStrLE s₁ s₂ = true ∨ pyStrLE s₂ s₁ = true := by
  unfold pyStrLE
  rcases charListLt_total s₁.data s₂.data with h | h | h
  · left
    rw [h]
    simp
  · right
    rw [h]
    simp
  · left
    have hs : s₁ = s₂ := String.ext h
    subst hs
    simp

theorem pyStrLE_trans (s₁ s₂ s₃ : String) (h1 : pyStrLE s₁ s₂ = true)
    (h2 : pyStrLE s₂ s₃ = true) : pyStrLE s₁ s₃ = true := by
  unfold pyStrLE at h1 h2 ⊢
  simp only [Bool.or_eq_true] at h1 h2 ⊢
  rcases h1 with h1 | h1
  · have hs : s₁ = s₂ := eq_of_beq h1
    subst hs
    exact h2
  · rcases h2 with h2 | h2
    · have hs : s₂ = s₃ := eq_of_beq h2
      subst hs
      right
      exact h1
    · right
      exact charListLt_trans _ _ _ h1 h2

instance : IsTotal (String × String × String) rowKeyLE :=
  ⟨fun a b => pyStrLE_total a.2.1 b.2.1⟩

instance : IsTrans (String × String × String) rowKeyLE :=
  ⟨fun a b c => pyStrLE_trans a.2.1 b.2.1 c.2.1⟩

theorem pad2_length : ∀ n : Nat, n < 100 → (pad2 n).length = 2 := by decide

theorem strfHMS_length (off ts : Nat) : (strfHMS off ts).length = 8 := by
  unfold strfHMS
  rw [String.length_append, String.length_append, String.length_append,
    String.length_append]
  rw [pad2_length (((ts + off) / 3600) % 24)
      (lt_trans (Nat.mod_lt _ (by norm_num)) (by norm_num)),
    pad2_length (((ts + off) / 60) % 60)
      (lt_trans (Nat.mod_lt _ (by norm_num)) (by norm_num)),
    pad2_length ((ts + off) % 60)
      (lt_trans (Nat.mod_lt _ (by norm_num)) (by norm_num))]
  decide

theorem strfHMS_ne_ongoing (off ts : Nat) : strfHMS off ts ≠ "ongoing" := by
  intro h
  have h8 := strfHMS_length off ts
  rw [h] at h8
  exact absurd h8 (by decide)

theorem mem_statusTableRows (off now : Nat)
    (tracker : List (String × List StatusInterval)) (r : String × String × String)
    (hr : r ∈ statusTableRows off now tracker) :
    ∃ p ∈ tracker, ∃ entry ∈ p.2,
      r = (p.1, format_timestamp off (some entry.start),
        toString (calculate_duration now entry.start entry.«end»)) := by
  unfold statusTableRows at hr
  rw [List.mem_flatten] at hr
  obtain ⟨l, hl, hrl⟩ := hr
  obtain ⟨p, hp, hpl⟩ := List.mem_map.1 hl
  rw [← hpl] at hrl
  obtain ⟨entry, hentry, hre⟩ := List.mem_map.1 hrl
  exact ⟨p, hp, entry, hentry, hre.symm⟩

/-- C9 as stated is false on the code.  The display sorts the rows by the
*formatted* `HH:MM:SS` start-time string (`key=lambda v: v[1]`), which is not
chronological across a day boundary: for `cxTracker`, the row of status `"B"`
(sole interval starting at 86401, `end = None`) is displayed *before* the row
of `"A"` (interval starting earlier, at 86399).  Moreover the open interval's
row reads `("B", "00:00:01", "99")` — clock time and a live duration — and no
cell of it is `"ongoing"`. -/
theorem timeline_rows_counterexample :
    sortedStatusRows 0 86500 cxTracker
      = [("B", "00:00:01", "99"), ("A", "23:59:59", "2")] ∧
    trackerGet cxTracker "A" = [⟨86399, some 86401⟩] ∧
    trackerGet cxTracker "B" = [⟨86401, none⟩] ∧
    86399 < 86401 ∧
    ("B", "00:00:01", "99").2.1 ≠ "ongoing" ∧
    ("B", "00:00:01", "99").2.2 ≠ "ongoing" := by
  refine ⟨by decide, by decide, by decide, by decide, by decide, by decide⟩

/-- C9 amended: the timeline rows are sorted by the formatted `HH:MM:SS`
start-time string (Python string order on the second tuple component), which
coincides with chronological order only within a single local day; and an
interval with `end = None` is shown with a computed elapsed duration — the
`"ongoing"` label would mark a `None` *start* (`format_timestamp`), which no
recorded interval has, so no row's start-time cell ever reads `"ongoing"`. -/
theorem timeline_rows_amended (off now : Nat)
    (tracker : List (String × List StatusInterval)) :
    List.Sorted rowKeyLE (sortedStatusRows off now tracker) ∧
    ∀ r ∈ sortedStatusRows off now tracker, r.2.1 ≠ "ongoing" := by
  constructor
  · show List.Sorted rowKeyLE ((statusTableRows off now tracker).insertionSort rowKeyLE)
    exact List.sorted_insertionSort rowKeyLE _
  · intro r hr
    have hr' : r ∈ (statusTableRows off now tracker).insertionSort rowKeyLE := hr
    have hmem : r ∈ statusTableRows off now tracker :=
      (List.perm_insertionSort rowKeyLE _).mem_iff.1 hr'
    obtain ⟨p, hp, entry, hentry, hre⟩ := mem_statusTableRows off now tracker r hmem
    rw [hre]
    show format_timestamp off (some entry.start) ≠ "ongoing"
    unfold format_timestamp
    exact strfHMS_ne_ongoing off entry.start

end ArmoniKCLI
